import Mathlib

/-!
Shallow embedding of the Solana e2e transaction client (`solclient` package:
`NewClient`, `TXSync`, `queueTX`, `TXAsync`, `Airdrop`, `AirdropAddresses`,
`LoadWallet`, `LoadWallets`, `SetWallet`, `WaitForEvents`) together with a
spec-modelled chain-identity resolver and ledger deduplication layer, and
theorems settling the frozen claims about this code.

External calls (RPC transport, websocket subscription transport, key parsing)
are modelled by a `World` record that fixes the outcome of each call; the
client functions thread through it exactly as the Go source does, recording
the externally visible effects (submissions, background confirmation tasks,
blockhash fetches) alongside the returned error value.
-/

namespace SolClient

/-- A Go `error` value. -/
structure GoError where
  msg : String
deriving DecidableEq, Repr

/-- Outcome of a fallible Go call: a value or a returned error. -/
abbrev Res (α : Type) := Except GoError α

/-- Outcome of a Go function once runtime panics are accounted for:
a returned value, a returned error, or a panic (`fault`). -/
inductive GoOutcome (α : Type) where
  | ok (a : α)
  | err (e : GoError)
  | fault (msg : String)
deriving DecidableEq, Repr

/-- rpc.CommitmentType: the confirmation-strength levels used by the client. -/
inductive Commitment where
  | processed
  | confirmed
  | finalized
deriving DecidableEq, Repr

structure PublicKey where
  key : String
deriving DecidableEq, Repr

structure PrivateKey where
  key : String
deriving DecidableEq, Repr

structure Blockhash where
  hash : String
deriving DecidableEq, Repr

/-- An instruction: opaque program directive plus the accounts whose
signatures it demands (the signer account metas). -/
structure Instruction where
  programID : PublicKey
  data : List Nat
  signers : List PublicKey
deriving DecidableEq, Repr

/-- A transaction: ordered instructions, a recent blockhash and the fee payer
(solana.NewTransaction with solana.TransactionPayer). -/
structure Transaction where
  instructions : List Instruction
  recentBlockhash : Blockhash
  payer : PublicKey
deriving DecidableEq, Repr

/-- solana.NewTransaction: fails when no instructions are provided, otherwise
assembles the transaction from instructions, blockhash and payer. -/
def newTransaction (instr : List Instruction) (bh : Blockhash)
    (payer : PublicKey) : Res Transaction :=
  if instr.isEmpty then .error ⟨"no instructions provided"⟩
  else .ok ⟨instr, bh, payer⟩

/-- The accounts that must sign a transaction: the fee payer plus every
signer account demanded by an instruction. -/
def Transaction.requiredSigners (tx : Transaction) : List PublicKey :=
  tx.payer :: tx.instructions.foldr (fun i acc => i.signers ++ acc) []

/-- A fully signed transaction. -/
structure SignedTx where
  tx : Transaction
deriving DecidableEq, Repr

/-- A transaction signature: per the data model it is a content-derived
identifier of the signed payload, so it is determined by the transaction
content (payer, blockhash, instruction set). -/
structure Signature where
  ofTx : Transaction
deriving DecidableEq, Repr

/-- tx.Sign(signerFunc): resolves a private key for every account requiring a
signature; fails with a signing error as soon as any required key is
unresolved, and produces the signed transaction otherwise. -/
def Transaction.sign (tx : Transaction)
    (signerFunc : PublicKey → Option PrivateKey) : Res SignedTx :=
  if tx.requiredSigners.all fun k => (signerFunc k).isSome then .ok ⟨tx⟩
  else .error ⟨"signer key not found"⟩

/-- An on-chain execution error reported in a confirmation result. -/
structure ChainError where
  msg : String
deriving DecidableEq, Repr

/-- The value delivered by a signature subscription (`res.Value`): it carries
the on-chain execution error, if any (`res.Value.Err`). -/
structure SignatureResult where
  err : Option ChainError
deriving DecidableEq, Repr

/-- A websocket signature subscription: `Recv` blocks and yields the
confirmation result or a transport error. -/
structure Subscription where
  recv : Res SignatureResult

/-- The outcomes of every external call the client can make; fixing a `World`
fixes one deterministic execution of the surrounding environment. -/
structure World where
  /-- RPC.GetRecentBlockhash, per requested commitment. -/
  getRecentBlockhash : Commitment → Res Blockhash
  /-- tx.EncodeTree printing to stdout. -/
  encodeTree : Res Unit
  /-- RPC.SendTransactionWithOpts (transaction, skipPreflight, preflightCommitment). -/
  sendTransactionWithOpts : SignedTx → Bool → Commitment → Res Signature
  /-- RPC.SendTransaction. -/
  sendTransaction : SignedTx → Res Signature
  /-- RPC.RequestAirdrop (pubkey, lamports, commitment). -/
  requestAirdrop : PublicKey → Nat → Commitment → Res Signature
  /-- WS.SignatureSubscribe (signature, commitment). -/
  signatureSubscribe : Signature → Commitment → Res Subscription
  /-- ws.Connect against a websocket URL. -/
  wsConnect : String → Res Unit
  /-- solana.PrivateKeyFromBase58 on an input string. -/
  privateKeyFromBase58 : String → Res PrivateKey
  /-- solana.PublicKeyFromBase58 on an input string. -/
  publicKeyFromBase58 : String → Res PublicKey

/-- Externally visible outcome of one send-path call: the returned error
value (`none` = nil), the commitments at which the recent blockhash was
fetched, the transactions handed to the RPC submit endpoints, and the
background confirmation tasks registered in the error group. -/
structure CallOut where
  result : Option GoError
  blockhashFetches : List Commitment
  submitted : List SignedTx
  queued : List (Signature × Commitment)
deriving DecidableEq, Repr

/-- Client.TXSync: fetch recent blockhash at finalized commitment, assemble,
encode, sign, submit with options (skipPreflight=false, caller commitment),
subscribe for the signature at the caller commitment, receive one result and
return nil; every failing step returns its error immediately. Note the final
step returns nil without inspecting `res.Value.Err`. -/
def Client.TXSync (w : World) (commitment : Commitment)
    (instr : List Instruction) (signerFunc : PublicKey → Option PrivateKey)
    (payer : PublicKey) : CallOut :=
  match w.getRecentBlockhash .finalized with
  | .error e => ⟨some e, [.finalized], [], []⟩
  | .ok recent =>
    match newTransaction instr recent payer with
    | .error e => ⟨some e, [.finalized], [], []⟩
    | .ok tx =>
      match w.encodeTree with
      | .error e => ⟨some e, [.finalized], [], []⟩
      | .ok _ =>
        match tx.sign signerFunc with
        | .error e => ⟨some e, [.finalized], [], []⟩
        | .ok stx =>
          match w.sendTransactionWithOpts stx false commitment with
          | .error e => ⟨some e, [.finalized], [stx], []⟩
          | .ok sig =>
            match w.signatureSubscribe sig commitment with
            | .error e => ⟨some e, [.finalized], [stx], []⟩
            | .ok sub =>
              match sub.recv with
              | .error e => ⟨some e, [.finalized], [stx], []⟩
              | .ok _res => ⟨none, [.finalized], [stx], []⟩

/-- The body of the closure that Client.queueTX hands to `txErrGroup.Go`: the
eventual result of the background confirmation task for one signature.
It subscribes, receives one result, and returns a wrapped error exactly when
the confirmation result carries an on-chain execution error. -/
def queueTXResult (w : World) (sig : Signature) (commitment : Commitment) :
    Option GoError :=
  match w.signatureSubscribe sig commitment with
  | .error e => some e
  | .ok sub =>
    match sub.recv with
    | .error e => some e
    | .ok res =>
      match res.err with
      | some txErr => some ⟨"transaction confirmation failed: " ++ txErr.msg⟩
      | none => none

/-- Client.TXAsync: same build/encode/sign steps as TXSync, then submits via
RPC.SendTransaction and, on success, registers the background confirmation
task `queueTX(sig, CommitmentConfirmed)` and returns nil immediately. -/
def Client.TXAsync (w : World) (instr : List Instruction)
    (signerFunc : PublicKey → Option PrivateKey) (payer : PublicKey) :
    CallOut :=
  match w.getRecentBlockhash .finalized with
  | .error e => ⟨some e, [.finalized], [], []⟩
  | .ok recent =>
    match newTransaction instr recent payer with
    | .error e => ⟨some e, [.finalized], [], []⟩
    | .ok tx =>
      match w.encodeTree with
      | .error e => ⟨some e, [.finalized], [], []⟩
      | .ok _ =>
        match tx.sign signerFunc with
        | .error e => ⟨some e, [.finalized], [], []⟩
        | .ok stx =>
          match w.sendTransaction stx with
          | .error e => ⟨some e, [.finalized], [stx], []⟩
          | .ok sig => ⟨none, [.finalized], [stx], [(sig, .confirmed)]⟩

/-- golang.org/x/sync/errgroup `Wait`: blocks until every task launched with
`Go` has completed, then returns the first non-nil error; the task results
are listed in the order the tasks complete. -/
def errgroupWait : List (Option GoError) → Option GoError
  | [] => none
  | some e :: _ => some e
  | none :: rest => errgroupWait rest

/-- A wallet holding a private key (solana.Wallet). -/
structure Wallet where
  privateKey : PrivateKey
deriving DecidableEq, Repr

/-- The wallet's public key, determined by its private key. -/
def Wallet.publicKey (wlt : Wallet) : PublicKey :=
  ⟨"pub-" ++ wlt.privateKey.key⟩

/-- The client state the claims depend on: the loaded wallets, the default
wallet, and the background confirmation tasks registered in `txErrGroup`
(held in the order the tasks complete). -/
structure Client where
  wallets : List Wallet
  defaultWallet : Option Wallet
  tasks : List (Signature × Commitment)
deriving DecidableEq, Repr

/-- Client.WaitForEvents: `c.txErrGroup.Wait()` — joins every registered
background confirmation task and returns the first error among their
results (in completion order), or nil when none errored. -/
def Client.WaitForEvents (c : Client) (w : World) : Option GoError :=
  errgroupWait (c.tasks.map fun t => queueTXResult w t.1 t.2)

/-- NewClient: builds the RPC client from `cfg.URLs[0]` and eagerly connects
the websocket client to `cfg.URLs[1]`, failing the constructor when the
connect fails. Go slice indexing panics when `URLs` has fewer than two
entries. -/
def NewClient (w : World) (urls : List String) : GoOutcome Client :=
  match urls[0]? with
  | none => .fault "index out of range"
  | some _ =>
    match urls[1]? with
    | none => .fault "index out of range"
    | some u1 =>
      match w.wsConnect u1 with
      | .error e => .err e
      | .ok _ => .ok ⟨[], none, []⟩

/-- Client.SetWallet: `c.DefaultWallet = c.Wallets[num]; return nil` — the
returned error is always nil, and Go indexing panics when `num` is not a
valid index. -/
def Client.SetWallet (c : Client) (num : Int) : GoOutcome (Client × Option GoError) :=
  if h : 0 ≤ num ∧ num.toNat < c.wallets.length then
    .ok ({ c with defaultWallet := some (c.wallets.get ⟨num.toNat, h.2⟩) }, none)
  else
    .fault "index out of range"

/-- Client.LoadWallet: parses a base58 private key and wraps it in a wallet. -/
def Client.LoadWallet (w : World) (path : String) : Res Wallet :=
  match w.privateKeyFromBase58 path with
  | .error e => .error e
  | .ok pk => .ok ⟨pk⟩

def LAMPORTS_PER_SOL : Nat := 1000000000

/-- Client.Airdrop: requests an airdrop at confirmed commitment and, on
success, registers the background confirmation task
`queueTX(txHash, CommitmentConfirmed)`. -/
def Client.Airdrop (c : Client) (w : World) (wpk : PublicKey)
    (solAmount : Nat) : Client × Option GoError :=
  match w.requestAirdrop wpk (LAMPORTS_PER_SOL * solAmount) .confirmed with
  | .error e => (c, some e)
  | .ok txHash => ({ c with tasks := c.tasks ++ [(txHash, .confirmed)] }, none)

/-- Client.AirdropAddresses: airdrops each address in turn (parsing it back
to a public key), then joins all outstanding tasks via WaitForEvents. -/
def Client.AirdropAddresses (c : Client) (w : World) (addr : List String)
    (solAmount : Nat) : Client × Option GoError :=
  match addr with
  | [] => (c, c.WaitForEvents w)
  | a :: rest =>
    match w.publicKeyFromBase58 a with
    | .error e => (c, some e)
    | .ok pubKey =>
      match c.Airdrop w pubKey solAmount with
      | (c1, some e) => (c1, some e)
      | (c1, none) => c1.AirdropAddresses w rest solAmount

/-- The wallet-loading loop of Client.LoadWallets: loads a wallet per
configured private key, appending each to `c.Wallets`. -/
def loadWalletsLoop (w : World) (c : Client) : List String → Res Client
  | [] => .ok c
  | pkString :: rest =>
    match Client.LoadWallet w pkString with
    | .error e => .error e
    | .ok wlt => loadWalletsLoop w { c with wallets := c.wallets ++ [wlt] } rest

/-- Client.LoadWallets: loads one wallet per configured private key, airdrops
every loaded wallet address, then calls `SetWallet(1)` — so reaching the end
with fewer than two wallets panics on the index. -/
def Client.LoadWallets (c : Client) (w : World) (privateKeys : List String) :
    GoOutcome Unit :=
  match loadWalletsLoop w c privateKeys with
  | .error e => .err e
  | .ok c1 =>
    match c1.AirdropAddresses w (c1.wallets.map fun wlt => wlt.publicKey.key) 500 with
    | (_, some e) => .err e
    | (c2, none) =>
      match c2.SetWallet 1 with
      | .fault m => .fault m
      | .err e => .err e
      | .ok (_, some e) => .err e
      | .ok (_, none) => .ok ()

/-- The subscription transport delivered a confirmation result for this
signature and commitment (subscribe and receive both succeeded). -/
def subCompleted (w : World) (sig : Signature) (commitment : Commitment) : Bool :=
  match w.signatureSubscribe sig commitment with
  | .error _ => false
  | .ok sub =>
    match sub.recv with
    | .error _ => false
    | .ok _ => true

/-- The on-chain execution error carried by the delivered confirmation
result, when one was delivered. -/
def observedChainErr (w : World) (sig : Signature) (commitment : Commitment) :
    Option ChainError :=
  match w.signatureSubscribe sig commitment with
  | .error _ => none
  | .ok sub =>
    match sub.recv with
    | .error _ => none
    | .ok res => res.err

/-- Genesis hash of the Solana devnet cluster (the constant the reader
client's lookup table and its test refer to). -/
def DevnetGenesisHash : String := "EtWTRABZaYq6iMfeYKouRu166VU2xqa1wcaWoxPkrZBG"

/-- Genesis hash of the Solana testnet cluster. -/
def TestnetGenesisHash : String := "4uhcVJyU9pJkvQyS88uRDiswHXSCkY3zQawwpjk2NsNY"

/-- Genesis hash of the Solana mainnet cluster. -/
def MainnetGenesisHash : String := "5eykt4UsFv8P8NJdTREpY1vzqKqZKvdpKuc147dw2N9d"

/-- Modelled from the spec: the reader client's `ChainID` implementation
(pkg/solana/client, absent from src; only its test is present) maps the
genesis hash returned by the transport through a fixed lookup table —
devnet, testnet and mainnet for the known hashes, `localnet` for any
unrecognized hash. -/
def chainIDFromHash (h : String) : String :=
  if h = DevnetGenesisHash then "devnet"
  else if h = TestnetGenesisHash then "testnet"
  else if h = MainnetGenesisHash then "mainnet"
  else "localnet"

/-- Modelled from the spec: `ChainID` re-queries the transport on every call
(no caching across calls), so a sequence of calls against a sequence of
transport genesis-hash responses resolves each response independently;
a transport error on one call is surfaced for that call alone. -/
def chainIDCalls : List (Res String) → List (Res String)
  | [] => []
  | .error e :: rest => .error e :: chainIDCalls rest
  | .ok h :: rest => .ok (chainIDFromHash h) :: chainIDCalls rest

/-- The single-transaction network fee observed for a simple transfer
(5000 lamports in the tests). -/
def txFee : Nat := 5000

/-- Modelled from the spec: the external ledger layer enforces at-most-once
execution per signature — the state is the set of already-processed
signatures plus the payer's balance. -/
structure Ledger where
  processed : List Signature
  balance : Nat
deriving DecidableEq, Repr

/-- Modelled from the spec: `SendTx` submits a signed transaction and returns
its content-derived signature; the ledger executes a given signature at most
once, charging the payer the fee exactly once (a self-transfer moves no net
funds), and a resubmission of an already-processed signature is a no-op that
still returns the same signature. -/
def Ledger.sendTx (L : Ledger) (stx : SignedTx) : Signature × Ledger :=
  let sig : Signature := ⟨stx.tx⟩
  if sig ∈ L.processed then (sig, L)
  else (sig, ⟨sig :: L.processed, L.balance - txFee⟩)

/-- Submits the same signed transaction `n` times in sequence (any
interleaving of concurrent duplicate submissions is such a sequence),
collecting the signature each call returned and the final ledger state. -/
def Ledger.sendTxTimes (L : Ledger) (stx : SignedTx) : Nat → List Signature × Ledger
  | 0 => ([], L)
  | n + 1 =>
    let first := L.sendTx stx
    let rest := first.2.sendTxTimes stx n
    (first.1 :: rest.1, rest.2)

/-- The error queueTX wraps an on-chain execution error in. -/
def confirmationFailedErr (ce : ChainError) : GoError :=
  ⟨"transaction confirmation failed: " ++ ce.msg⟩

def GoOutcome.map (f : α → β) : GoOutcome α → GoOutcome β
  | .ok a => .ok (f a)
  | .err e => .err e
  | .fault m => .fault m

/-- A one-lamport self-transfer instruction used as a concrete input. -/
def wInstr : Instruction := ⟨⟨"SystemProgram"⟩, [1], [⟨"pub-payerKey"⟩]⟩

def wPayer : PublicKey := ⟨"pub-payerKey"⟩

/-- A resolver that holds the payer's key. -/
def wSigner : PublicKey → Option PrivateKey := fun _ => some ⟨"payerKey"⟩

/-- A resolver that holds no keys at all. -/
def wNoKeySigner : PublicKey → Option PrivateKey := fun _ => none

def wTx : Transaction := ⟨[wInstr], ⟨"bh"⟩, wPayer⟩

def wSigA : Signature := ⟨wTx⟩

def wSigB : Signature := ⟨⟨[wInstr], ⟨"bh2"⟩, wPayer⟩⟩

/-- A world in which every external call succeeds and every confirmation
result carries no on-chain error. -/
def okWorld : World :=
  { getRecentBlockhash := fun _ => .ok ⟨"bh"⟩
    encodeTree := .ok ()
    sendTransactionWithOpts := fun stx _ _ => .ok ⟨stx.tx⟩
    sendTransaction := fun stx => .ok ⟨stx.tx⟩
    requestAirdrop := fun k _ _ => .ok ⟨⟨[], ⟨"bh"⟩, k⟩⟩
    signatureSubscribe := fun _ _ => .ok ⟨.ok ⟨none⟩⟩
    wsConnect := fun _ => .ok ()
    privateKeyFromBase58 := fun s => .ok ⟨s⟩
    publicKeyFromBase58 := fun s => .ok ⟨s⟩ }

/-- Like okWorld, except every confirmation result carries an on-chain
execution error. -/
def chainErrWorld : World :=
  { okWorld with
    signatureSubscribe := fun _ _ => .ok ⟨.ok ⟨some ⟨"InstructionError"⟩⟩⟩ }

/-- Like okWorld, except the confirmation result for `wSigA` carries an
on-chain execution error while every other signature confirms cleanly. -/
def mixedWorld : World :=
  { okWorld with
    signatureSubscribe := fun sig _ =>
      if sig = wSigA then .ok ⟨.ok ⟨some ⟨"InstructionError"⟩⟩⟩
      else .ok ⟨.ok ⟨none⟩⟩ }

/-- A client that has registered a cleanly-confirming task and then a task
whose confirmation carries an on-chain error (completion order). -/
def wTwoTaskClient : Client := ⟨[], none, [(wSigB, .confirmed), (wSigA, .confirmed)]⟩

def wFreshClient : Client := ⟨[], none, []⟩

def wTwoWalletClient : Client := ⟨[⟨⟨"k1"⟩⟩, ⟨⟨"k2"⟩⟩], none, []⟩

theorem errgroupWait_eq_none (rs : List (Option GoError))
    (h : ∀ r ∈ rs, r = none) : errgroupWait rs = none := by
  induction rs with
  | nil => rfl
  | cons r rest ih =>
    have hr := h r (by simp)
    subst hr
    simpa [errgroupWait] using ih fun r2 hr2 => h r2 (by simp [hr2])

theorem errgroupWait_append_none (rs1 rs2 : List (Option GoError))
    (h : ∀ r ∈ rs1, r = none) :
    errgroupWait (rs1 ++ rs2) = errgroupWait rs2 := by
  induction rs1 with
  | nil => rfl
  | cons r rest ih =>
    have hr := h r (by simp)
    subst hr
    simpa [errgroupWait] using ih fun r2 hr2 => h r2 (by simp [hr2])

theorem queueTXResult_eq_map (w : World) (sig : Signature) (cm : Commitment)
    (hcomp : subCompleted w sig cm = true) :
    queueTXResult w sig cm = (observedChainErr w sig cm).map confirmationFailedErr := by
  unfold subCompleted at hcomp
  unfold queueTXResult observedChainErr
  cases hsub : w.signatureSubscribe sig cm with
  | error e => rw [hsub] at hcomp; simp at hcomp
  | ok sub =>
    simp only [hsub] at hcomp ⊢
    cases hrecv : sub.recv with
    | error e => simp only [hrecv] at hcomp; simp at hcomp
    | ok res =>
      simp only [hrecv]
      cases hres : res.err <;> simp [hres, confirmationFailedErr]

/-- C8: both TXSync and TXAsync fetch the recent blockhash used to assemble
the transaction at the finalized commitment level — the only blockhash fetch
either path performs is at `CommitmentFinalized`, independent of the
commitment the caller requests for confirmation. -/
theorem tx_blockhash_always_finalized (w : World) (commitment : Commitment)
    (instr : List Instruction) (signerFunc : PublicKey → Option PrivateKey)
    (payer : PublicKey) :
    (Client.TXSync w commitment instr signerFunc payer).blockhashFetches =
      [Commitment.finalized] ∧
    (Client.TXAsync w instr signerFunc payer).blockhashFetches =
      [Commitment.finalized] := by
  constructor
  · unfold Client.TXSync
    repeat' split
    all_goals rfl
  · unfold Client.TXAsync
    repeat' split
    all_goals rfl

/-- C1 counterexample: in a world where every transport step succeeds but the
confirmation result observed from the signature subscription carries an
on-chain execution error, TXSync still returns nil — it does not surface the
on-chain error, refuting the claim at this concrete input. -/
theorem txSync_chain_error_cex :
    observedChainErr chainErrWorld wSigA .confirmed =
      some ⟨"InstructionError"⟩ ∧
    (Client.TXSync chainErrWorld .confirmed [wInstr] wSigner wPayer).result =
      none := by
  constructor <;> rfl

/-- C1 amended: TXSync returns nil exactly when every transport-level step
succeeds (blockhash fetch, assembly, encoding, signing, submission,
subscription, receive); the received confirmation result `res` is never
inspected, so the return value is nil even when `res` carries an on-chain
execution error. -/
theorem txSync_success_ignores_chain_error (w : World) (commitment : Commitment)
    (instr : List Instruction) (signerFunc : PublicKey → Option PrivateKey)
    (payer : PublicKey) (bh : Blockhash) (tx : Transaction) (stx : SignedTx)
    (sig : Signature) (sub : Subscription) (res : SignatureResult)
    (hbh : w.getRecentBlockhash .finalized = .ok bh)
    (htx : newTransaction instr bh payer = .ok tx)
    (henc : w.encodeTree = .ok ())
    (hsign : tx.sign signerFunc = .ok stx)
    (hsend : w.sendTransactionWithOpts stx false commitment = .ok sig)
    (hsub : w.signatureSubscribe sig commitment = .ok sub)
    (hrecv : sub.recv = .ok res) :
    (Client.TXSync w commitment instr signerFunc payer).result = none := by
  unfold Client.TXSync
  simp only [hbh, htx, henc, hsign, hsend, hsub, hrecv]

/-- Witness for the amended C1 theorem at a concrete world and input. -/
theorem txSync_success_ignores_chain_error_witness :
    (Client.TXSync chainErrWorld .confirmed [wInstr] wSigner wPayer).result =
      none :=
  txSync_success_ignores_chain_error chainErrWorld .confirmed [wInstr] wSigner
    wPayer ⟨"bh"⟩ wTx ⟨wTx⟩ wSigA ⟨.ok ⟨some ⟨"InstructionError"⟩⟩⟩
    ⟨some ⟨"InstructionError"⟩⟩ rfl rfl rfl rfl rfl rfl rfl

/-- C3: after a successful submit, TXAsync returns nil immediately — its
return value and effects are independent of the subscription transport (any
world agreeing on the RPC fields yields the identical call outcome), it
registers exactly the background task `queueTX(sig, confirmed)`, and that
task's recorded result is an error exactly when the delivered confirmation
result carries an on-chain execution error. -/
theorem txAsync_registers_confirmation_task (w w2 : World)
    (instr : List Instruction) (signerFunc : PublicKey → Option PrivateKey)
    (payer : PublicKey) (bh : Blockhash) (tx : Transaction) (stx : SignedTx)
    (sig : Signature)
    (hbh : w.getRecentBlockhash .finalized = .ok bh)
    (htx : newTransaction instr bh payer = .ok tx)
    (henc : w.encodeTree = .ok ())
    (hsign : tx.sign signerFunc = .ok stx)
    (hsend : w.sendTransaction stx = .ok sig)
    (hbh2 : w2.getRecentBlockhash = w.getRecentBlockhash)
    (henc2 : w2.encodeTree = w.encodeTree)
    (hsend2 : w2.sendTransaction = w.sendTransaction)
    (hcomp : subCompleted w sig .confirmed = true) :
    Client.TXAsync w instr signerFunc payer =
      ⟨none, [.finalized], [stx], [(sig, .confirmed)]⟩ ∧
    Client.TXAsync w2 instr signerFunc payer =
      Client.TXAsync w instr signerFunc payer ∧
    (queueTXResult w sig .confirmed).isSome =
      (observedChainErr w sig .confirmed).isSome := by
  refine ⟨?_, ?_, ?_⟩
  · unfold Client.TXAsync
    simp only [hbh, htx, henc, hsign, hsend]
  · unfold Client.TXAsync
    rw [hbh2, henc2, hsend2]
  · rw [queueTXResult_eq_map w sig .confirmed hcomp]
    cases observedChainErr w sig .confirmed <;> simp

/-- Witness for C3 at a concrete world, with a second world differing only
in the subscription transport. -/
theorem txAsync_registers_confirmation_task_witness :
    Client.TXAsync okWorld [wInstr] wSigner wPayer =
      ⟨none, [.finalized], [⟨wTx⟩], [(wSigA, .confirmed)]⟩ ∧
    Client.TXAsync chainErrWorld [wInstr] wSigner wPayer =
      Client.TXAsync okWorld [wInstr] wSigner wPayer ∧
    (queueTXResult okWorld wSigA .confirmed).isSome =
      (observedChainErr okWorld wSigA .confirmed).isSome :=
  txAsync_registers_confirmation_task okWorld chainErrWorld [wInstr] wSigner
    wPayer ⟨"bh"⟩ wTx ⟨wTx⟩ wSigA rfl rfl rfl rfl rfl rfl rfl rfl rfl

/-- C7: when the supplied resolver returns no key for some account that
requires a signature, both TXSync and TXAsync return the signing error
immediately: nothing is submitted to the RPC transport and no background
confirmation task is registered. -/
theorem tx_signing_error_no_submit (w : World) (commitment : Commitment)
    (instr : List Instruction) (signerFunc : PublicKey → Option PrivateKey)
    (payer : PublicKey) (bh : Blockhash) (tx : Transaction) (k : PublicKey)
    (hbh : w.getRecentBlockhash .finalized = .ok bh)
    (htx : newTransaction instr bh payer = .ok tx)
    (henc : w.encodeTree = .ok ())
    (hk : k ∈ tx.requiredSigners) (hnone : signerFunc k = none) :
    Client.TXSync w commitment instr signerFunc payer =
      ⟨some ⟨"signer key not found"⟩, [.finalized], [], []⟩ ∧
    Client.TXAsync w instr signerFunc payer =
      ⟨some ⟨"signer key not found"⟩, [.finalized], [], []⟩ := by
  have hsign : tx.sign signerFunc = .error ⟨"signer key not found"⟩ := by
    unfold Transaction.sign
    rw [if_neg]
    intro hall
    rw [List.all_eq_true] at hall
    have hsome := hall k hk
    simp [hnone] at hsome
  constructor
  · unfold Client.TXSync
    simp only [hbh, htx, henc, hsign]
  · unfold Client.TXAsync
    simp only [hbh, htx, henc, hsign]

/-- Witness for C7: a resolver holding no keys fails both paths at a
concrete world without submitting or queueing anything. -/
theorem tx_signing_error_no_submit_witness :
    Client.TXSync okWorld .confirmed [wInstr] wNoKeySigner wPayer =
      ⟨some ⟨"signer key not found"⟩, [.finalized], [], []⟩ ∧
    Client.TXAsync okWorld [wInstr] wNoKeySigner wPayer =
      ⟨some ⟨"signer key not found"⟩, [.finalized], [], []⟩ :=
  tx_signing_error_no_submit okWorld .confirmed [wInstr] wNoKeySigner wPayer
    ⟨"bh"⟩ wTx wPayer rfl rfl rfl (by decide) rfl

theorem waitForEvents_aux (w : World) (tasks : List (Signature × Commitment))
    (hcomp : ∀ t ∈ tasks, subCompleted w t.1 t.2 = true) :
    (errgroupWait (tasks.map fun t => queueTXResult w t.1 t.2) = none ↔
      (tasks.filter fun t2 => (observedChainErr w t2.1 t2.2).isSome).length = 0) := by
  induction tasks with
  | nil => simp [errgroupWait]
  | cons t rest ih =>
    have ht := hcomp t (by simp)
    have hrest := ih fun t2 h2 => hcomp t2 (by simp [h2])
    rw [List.map_cons, queueTXResult_eq_map w t.1 t.2 ht, List.filter_cons]
    cases hobs : observedChainErr w t.1 t.2 with
    | none => simpa [errgroupWait, hobs] using hrest
    | some ce => simp [errgroupWait, hobs]

/-- C2: when every registered background task's subscription delivered its
confirmation result, WaitForEvents — the join over all registered tasks —
returns nil exactly when no task observed an on-chain execution error, and
when some task did, it returns the (non-nil) error of the first failing task
in completion order. -/
theorem waitForEvents_first_error (c c2 : Client) (w : World)
    (ts1 ts2 : List (Signature × Commitment)) (t : Signature × Commitment)
    (hcomp : ∀ t2 ∈ c.tasks, subCompleted w t2.1 t2.2 = true)
    (hcomp2 : ∀ t2 ∈ c2.tasks, subCompleted w t2.1 t2.2 = true)
    (hsplit : c2.tasks = ts1 ++ t :: ts2)
    (hok1 : ∀ t2 ∈ ts1, observedChainErr w t2.1 t2.2 = none)
    (herr : (observedChainErr w t.1 t.2).isSome = true) :
    (c.WaitForEvents w = none ↔
      (c.tasks.filter fun t2 => (observedChainErr w t2.1 t2.2).isSome).length = 0) ∧
    c2.WaitForEvents w = queueTXResult w t.1 t.2 ∧
    (queueTXResult w t.1 t.2).isSome = true := by
  have hmem : t ∈ c2.tasks := by
    rw [hsplit]
    exact List.mem_append_right _ (List.mem_cons_self _ _)
  have hq : queueTXResult w t.1 t.2 =
      (observedChainErr w t.1 t.2).map confirmationFailedErr :=
    queueTXResult_eq_map w t.1 t.2 (hcomp2 t hmem)
  refine ⟨waitForEvents_aux w c.tasks hcomp, ?_, ?_⟩
  · unfold Client.WaitForEvents
    rw [hsplit, List.map_append]
    rw [errgroupWait_append_none]
    · rw [List.map_cons]
      cases hobs : observedChainErr w t.1 t.2 with
      | none => rw [hobs] at herr; simp at herr
      | some ce => rw [hq, hobs]; simp [errgroupWait]
    · intro r hr
      rw [List.mem_map] at hr
      obtain ⟨t2, ht2, hrq⟩ := hr
      have hcm : subCompleted w t2.1 t2.2 = true :=
        hcomp2 t2 (by rw [hsplit]; exact List.mem_append_left _ ht2)
      rw [← hrq, queueTXResult_eq_map w t2.1 t2.2 hcm, hok1 t2 ht2]
      rfl
  · rw [hq]
    cases hobs : observedChainErr w t.1 t.2 with
    | none => rw [hobs] at herr; simp at herr
    | some ce => simp

/-- Witness for C2: two background tasks, the second of which observed an
on-chain error — WaitForEvents is non-nil and equals that task's error. -/
theorem waitForEvents_first_error_witness :
    (wTwoTaskClient.WaitForEvents mixedWorld = none ↔
      (wTwoTaskClient.tasks.filter
        fun t2 => (observedChainErr mixedWorld t2.1 t2.2).isSome).length = 0) ∧
    wTwoTaskClient.WaitForEvents mixedWorld =
      queueTXResult mixedWorld wSigA .confirmed ∧
    (queueTXResult mixedWorld wSigA .confirmed).isSome = true :=
  waitForEvents_first_error wTwoTaskClient wTwoTaskClient mixedWorld
    [(wSigB, .confirmed)] [] (wSigA, .confirmed) (by decide) (by decide)
    (by decide) (by decide) (by decide)

/-- C5: the chain-identity lookup maps the devnet, testnet and mainnet
genesis hashes to their network names and any other hash to localnet, and
since each call re-queries the transport, four consecutive calls against
four different genesis-hash responses yield the four corresponding names. -/
theorem chainID_lookup (h : String) (hd : h ≠ DevnetGenesisHash)
    (ht : h ≠ TestnetGenesisHash) (hm : h ≠ MainnetGenesisHash) :
    chainIDFromHash DevnetGenesisHash = "devnet" ∧
    chainIDFromHash TestnetGenesisHash = "testnet" ∧
    chainIDFromHash MainnetGenesisHash = "mainnet" ∧
    chainIDFromHash h = "localnet" ∧
    chainIDCalls [.ok DevnetGenesisHash, .ok TestnetGenesisHash,
        .ok MainnetGenesisHash, .ok h] =
      [.ok "devnet", .ok "testnet", .ok "mainnet", .ok "localnet"] := by
  have h1 : chainIDFromHash DevnetGenesisHash = "devnet" := by decide
  have h2 : chainIDFromHash TestnetGenesisHash = "testnet" := by decide
  have h3 : chainIDFromHash MainnetGenesisHash = "mainnet" := by decide
  have h4 : chainIDFromHash h = "localnet" := by
    unfold chainIDFromHash
    rw [if_neg hd, if_neg ht, if_neg hm]
  exact ⟨h1, h2, h3, h4, by simp [chainIDCalls, h1, h2, h3, h4]⟩

/-- Witness for C5 at the concrete unrecognized hash the test uses. -/
theorem chainID_lookup_witness :
    chainIDFromHash DevnetGenesisHash = "devnet" ∧
    chainIDFromHash TestnetGenesisHash = "testnet" ∧
    chainIDFromHash MainnetGenesisHash = "mainnet" ∧
    chainIDFromHash "GH7ome3EiwEr7tu9JuTh2dpYWBJK3z69Xm1ZE3MEE6JC" = "localnet" ∧
    chainIDCalls [.ok DevnetGenesisHash, .ok TestnetGenesisHash,
        .ok MainnetGenesisHash,
        .ok "GH7ome3EiwEr7tu9JuTh2dpYWBJK3z69Xm1ZE3MEE6JC"] =
      [.ok "devnet", .ok "testnet", .ok "mainnet", .ok "localnet"] :=
  chainID_lookup "GH7ome3EiwEr7tu9JuTh2dpYWBJK3z69Xm1ZE3MEE6JC"
    (by decide) (by decide) (by decide)

theorem sendTxTimes_processed (L : Ledger) (stx : SignedTx) (n : Nat)
    (h : (⟨stx.tx⟩ : Signature) ∈ L.processed) :
    L.sendTxTimes stx n = (List.replicate n ⟨stx.tx⟩, L) := by
  induction n with
  | zero => simp [Ledger.sendTxTimes]
  | succ k ih =>
    simp only [Ledger.sendTxTimes, Ledger.sendTx]
    rw [if_pos h]
    simp [ih, List.replicate_succ]

/-- C6: the signature is a deterministic function of (payer, blockhash,
instruction set) — any two signings of the transaction assembled from the
same triple produce the same signed payload and hence the same signature —
and on the at-most-once ledger, submitting that signed transaction any
positive number of times returns this one signature from every call while
the payer's balance decreases by exactly the single-transaction fee. -/
theorem sendTx_duplicates_dedup (instr : List Instruction) (bh : Blockhash)
    (payer : PublicKey) (f g : PublicKey → Option PrivateKey)
    (tx : Transaction) (stx1 stx2 : SignedTx) (L : Ledger) (n : Nat)
    (htx : newTransaction instr bh payer = .ok tx)
    (h1 : tx.sign f = .ok stx1) (h2 : tx.sign g = .ok stx2)
    (hn : 1 ≤ n) (hfresh : (⟨stx1.tx⟩ : Signature) ∉ L.processed) :
    stx1 = stx2 ∧
    (L.sendTxTimes stx1 n).1 = List.replicate n ⟨stx1.tx⟩ ∧
    (L.sendTxTimes stx1 n).2.balance = L.balance - txFee := by
  have hs1 : stx1 = ⟨tx⟩ := by
    unfold Transaction.sign at h1
    split at h1
    · injection h1 with he; exact he.symm
    · exact Except.noConfusion h1
  have hs2 : stx2 = ⟨tx⟩ := by
    unfold Transaction.sign at h2
    split at h2
    · injection h2 with he; exact he.symm
    · exact Except.noConfusion h2
  obtain ⟨m, rfl⟩ : ∃ m, n = m + 1 := ⟨n - 1, by omega⟩
  have hstep : L.sendTx stx1 =
      (⟨stx1.tx⟩, ⟨⟨stx1.tx⟩ :: L.processed, L.balance - txFee⟩) := by
    unfold Ledger.sendTx
    rw [if_neg hfresh]
  have hrest : (⟨⟨stx1.tx⟩ :: L.processed, L.balance - txFee⟩ :
      Ledger).sendTxTimes stx1 m =
      (List.replicate m ⟨stx1.tx⟩,
        ⟨⟨stx1.tx⟩ :: L.processed, L.balance - txFee⟩) :=
    sendTxTimes_processed _ _ m (List.mem_cons_self _ _)
  have hall : L.sendTxTimes stx1 (m + 1) =
      (List.replicate (m + 1) ⟨stx1.tx⟩,
        ⟨⟨stx1.tx⟩ :: L.processed, L.balance - txFee⟩) := by
    simp only [Ledger.sendTxTimes]
    rw [hstep]
    simp [hrest, List.replicate_succ]
  exact ⟨hs1.trans hs2.symm, by rw [hall], by rw [hall]⟩

/-- Witness for C6: five submissions of one signed self-transfer produce the
single signature five times and cost exactly one fee. -/
theorem sendTx_duplicates_dedup_witness :
    (⟨wTx⟩ : SignedTx) = ⟨wTx⟩ ∧
    ((⟨[], 100000000000⟩ : Ledger).sendTxTimes ⟨wTx⟩ 5).1 =
      List.replicate 5 wSigA ∧
    ((⟨[], 100000000000⟩ : Ledger).sendTxTimes ⟨wTx⟩ 5).2.balance =
      100000000000 - txFee :=
  sendTx_duplicates_dedup [wInstr] ⟨"bh"⟩ wPayer wSigner wSigner wTx
    ⟨wTx⟩ ⟨wTx⟩ ⟨[], 100000000000⟩ 5 rfl rfl rfl (by omega) (by simp)

/-- C9 counterexample: a configuration with no endpoint URLs makes the
constructor panic with an index-out-of-range fault instead of returning a
configuration error. -/
theorem newClient_missing_config_cex :
    NewClient okWorld [] = .fault "index out of range" := rfl

/-- C9 amended: with at least two configured endpoint URLs, NewClient
eagerly connects the websocket endpoint (the second URL) and returns an
error from the constructor exactly when that connect fails; with fewer than
two URLs it panics on the slice index instead of returning an error. -/
theorem newClient_eager_ws (w : World) (u0 u1 : String)
    (rest urls2 : List String) (h2 : urls2.length < 2) :
    NewClient w (u0 :: u1 :: rest) =
      (match w.wsConnect u1 with
        | .error e => .err e
        | .ok _ => .ok ⟨[], none, []⟩) ∧
    NewClient w urls2 = .fault "index out of range" := by
  constructor
  · unfold NewClient
    simp only [List.getElem?_cons_zero, List.getElem?_cons_succ]
  · match urls2, h2 with
    | [], _ => rfl
    | [a], _ => rfl
    | a :: b :: tl, h2 => exact absurd h2 (by simp)

/-- Witness for the amended C9 theorem at concrete URL lists. -/
theorem newClient_eager_ws_witness :
    NewClient okWorld ["http-url", "ws-url"] =
      (match okWorld.wsConnect "ws-url" with
        | .error e => .err e
        | .ok _ => .ok ⟨[], none, []⟩) ∧
    NewClient okWorld ["http-url"] = .fault "index out of range" :=
  newClient_eager_ws okWorld "http-url" "ws-url" [] ["http-url"] (by decide)

theorem loadWalletsLoop_length (w : World) :
    ∀ (keys : List String) (c c1 : Client),
      loadWalletsLoop w c keys = .ok c1 →
      c1.wallets.length = c.wallets.length + keys.length := by
  intro keys
  induction keys with
  | nil =>
    intro c c1 h
    simp only [loadWalletsLoop] at h
    injection h with he
    rw [← he]
    simp
  | cons s rest ih =>
    intro c c1 h
    simp only [loadWalletsLoop] at h
    cases hlw : Client.LoadWallet w s with
    | error e => rw [hlw] at h; exact Except.noConfusion h
    | ok wlt =>
      rw [hlw] at h
      have hlen := ih _ _ h
      simp only [List.length_append, List.length_cons, List.length_nil] at hlen
      have hc : (s :: rest).length = rest.length + 1 := rfl
      omega

theorem loadWalletsLoop_ok (w : World)
    (hpk : ∀ s, ∃ pk, w.privateKeyFromBase58 s = .ok pk) :
    ∀ (keys : List String) (c : Client),
      ∃ c1, loadWalletsLoop w c keys = .ok c1 ∧
        c1.wallets.length = c.wallets.length + keys.length := by
  intro keys
  induction keys with
  | nil => intro c; exact ⟨c, rfl, by simp⟩
  | cons s rest ih =>
    intro c
    obtain ⟨pk, hpks⟩ := hpk s
    obtain ⟨c1, hc1, hlen⟩ := ih { c with wallets := c.wallets ++ [⟨pk⟩] }
    refine ⟨c1, ?_, ?_⟩
    · simp only [loadWalletsLoop, Client.LoadWallet, hpks]
      exact hc1
    · simp only [List.length_append, List.length_cons, List.length_nil] at hlen
      have hc : (s :: rest).length = rest.length + 1 := rfl
      omega

theorem airdropAddresses_none (w : World) (amt : Nat)
    (hpub : ∀ s, ∃ k, w.publicKeyFromBase58 s = .ok k)
    (hdrop : ∀ k n, ∃ sg, w.requestAirdrop k n .confirmed = .ok sg)
    (hq : ∀ sg cm, queueTXResult w sg cm = none) :
    ∀ (addr : List String) (c : Client),
      ∃ c2, c.AirdropAddresses w addr amt = (c2, none) ∧
        c2.wallets = c.wallets := by
  intro addr
  induction addr with
  | nil =>
    intro c
    refine ⟨c, ?_, rfl⟩
    have hwait : c.WaitForEvents w = none := by
      unfold Client.WaitForEvents
      apply errgroupWait_eq_none
      intro r hr
      rw [List.mem_map] at hr
      obtain ⟨t, _, hrq⟩ := hr
      rw [← hrq, hq]
    simp only [Client.AirdropAddresses, hwait]
  | cons a rest ih =>
    intro c
    obtain ⟨k, hka⟩ := hpub a
    obtain ⟨sg, hsg⟩ := hdrop k (LAMPORTS_PER_SOL * amt)
    obtain ⟨c2, hc2, hw⟩ := ih { c with tasks := c.tasks ++ [(sg, .confirmed)] }
    refine ⟨c2, ?_, hw⟩
    simp only [Client.AirdropAddresses, hka, Client.Airdrop, hsg]
    exact hc2

theorem airdropAddresses_wallets (w : World) (amt : Nat) :
    ∀ (addr : List String) (c : Client),
      ((c.AirdropAddresses w addr amt).1).wallets = c.wallets := by
  intro addr
  induction addr with
  | nil => intro c; rfl
  | cons a rest ih =>
    intro c
    simp only [Client.AirdropAddresses]
    cases hka : w.publicKeyFromBase58 a with
    | error e => rfl
    | ok k =>
      simp only [Client.Airdrop]
      cases hsg : w.requestAirdrop k (LAMPORTS_PER_SOL * amt) .confirmed with
      | error e => rfl
      | ok sg => exact ih _

/-- C10: SetWallet never returns a non-nil error — a valid index yields nil
and any invalid index panics with an index-out-of-range fault — and
LoadWallets, which ends by calling SetWallet(1), completes successfully only
with at least two configured private keys; with every external step
succeeding and fewer than two keys it panics on that index. -/
theorem setWallet_fault_loadWallets_two_keys (cIn cOut : Client)
    (numIn numOut : Int) (w w2 : World) (keys keys2 : List String)
    (hInLow : 0 ≤ numIn) (hInHigh : numIn.toNat < cIn.wallets.length)
    (hOut : numOut < 0 ∨ (cOut.wallets.length : Int) ≤ numOut)
    (hLW : wFreshClient.LoadWallets w keys = .ok ())
    (hk2 : keys2.length < 2)
    (hpk : ∀ s, ∃ pk, w2.privateKeyFromBase58 s = .ok pk)
    (hpub : ∀ s, ∃ k, w2.publicKeyFromBase58 s = .ok k)
    (hdrop : ∀ k n, ∃ sg, w2.requestAirdrop k n .confirmed = .ok sg)
    (hq : ∀ sg cm, queueTXResult w2 sg cm = none) :
    (Client.SetWallet cIn numIn).map Prod.snd = .ok none ∧
    Client.SetWallet cOut numOut = .fault "index out of range" ∧
    2 ≤ keys.length ∧
    wFreshClient.LoadWallets w2 keys2 = .fault "index out of range" := by
  refine ⟨?_, ?_, ?_, ?_⟩
  · unfold Client.SetWallet
    rw [dif_pos ⟨hInLow, hInHigh⟩]
    rfl
  · unfold Client.SetWallet
    rw [dif_neg]
    rintro ⟨hge, hlt⟩
    omega
  · unfold Client.LoadWallets at hLW
    cases hl : loadWalletsLoop w wFreshClient keys with
    | error e => rw [hl] at hLW; exact GoOutcome.noConfusion hLW
    | ok c1 =>
      rw [hl] at hLW
      dsimp only at hLW
      have hwl : ((c1.AirdropAddresses w
          (c1.wallets.map fun wlt => wlt.publicKey.key) 500).1).wallets =
          c1.wallets := airdropAddresses_wallets w 500 _ c1
      cases ha : c1.AirdropAddresses w
          (c1.wallets.map fun wlt => wlt.publicKey.key) 500 with
      | mk c2 e =>
        rw [ha] at hLW hwl
        dsimp only at hwl
        cases e with
        | some e2 => dsimp only at hLW; exact GoOutcome.noConfusion hLW
        | none =>
          dsimp only at hLW
          by_cases hcond : 0 ≤ (1 : Int) ∧ (1 : Int).toNat < c2.wallets.length
          · have hlen := loadWalletsLoop_length w keys wFreshClient c1 hl
            simp only [wFreshClient, List.length_nil] at hlen
            have h1lt : 1 < c2.wallets.length := hcond.2
            rw [hwl] at h1lt
            omega
          · unfold Client.SetWallet at hLW
            rw [dif_neg hcond] at hLW
            dsimp only at hLW
            exact GoOutcome.noConfusion hLW
  · obtain ⟨c1, hl3, hlen⟩ := loadWalletsLoop_ok w2 hpk keys2 wFreshClient
    obtain ⟨c2, ha4, hw4⟩ := airdropAddresses_none w2 500 hpub hdrop hq
      (c1.wallets.map fun wlt => wlt.publicKey.key) c1
    have hneg : ¬(0 ≤ (1 : Int) ∧ (1 : Int).toNat < c2.wallets.length) := by
      rintro ⟨hge, hlt⟩
      rw [hw4] at hlt
      simp only [wFreshClient, List.length_nil] at hlen
      omega
    unfold Client.LoadWallets
    rw [hl3]
    dsimp only
    rw [ha4]
    dsimp only
    unfold Client.SetWallet
    rw [dif_neg hneg]

/-- Witness for C10: a two-wallet client accepts index 1 returning nil, a
negative index faults, a two-key load succeeds, and a one-key load with all
external steps succeeding faults on SetWallet(1). -/
theorem setWallet_fault_loadWallets_two_keys_witness :
    (Client.SetWallet wTwoWalletClient 1).map Prod.snd = .ok none ∧
    Client.SetWallet wTwoWalletClient (-1) = .fault "index out of range" ∧
    2 ≤ (["k1", "k2"] : List String).length ∧
    wFreshClient.LoadWallets okWorld ["k1"] = .fault "index out of range" :=
  setWallet_fault_loadWallets_two_keys wTwoWalletClient wTwoWalletClient
    1 (-1) okWorld okWorld ["k1", "k2"] ["k1"] (by decide) (by decide)
    (Or.inl (by decide)) (by decide) (by decide)
    (fun s => ⟨⟨s⟩, rfl⟩) (fun s => ⟨⟨s⟩, rfl⟩)
    (fun k n => ⟨⟨⟨[], ⟨"bh"⟩, k⟩⟩, rfl⟩) (fun sg cm => rfl)

end SolClient
